import Mathlib

/-!
Verification development for the conversational-agent orchestration core:
a shallow embedding of `backend/agent.py` (the generate → decide → act
state machine driven through `ChatAgent.should_continue`, `tool_node`,
`generate`, `_run_graph` and `query`) and of
`backend/postgres_storage.py` (`PostgreSQLConversationStorage`: the
TTL cache, the pending-save buffer with its batch flush worker, message
(de)serialization, reads and deletion).

Modelling conventions:
* Pure Python functions become Lean functions; methods that mutate
  `self` become explicit state-passing functions on `StoreState`.
* `time.time()` is modelled by an explicit `now : Nat` argument read at
  each call, and cache expiry uses truncated Nat subtraction
  (timestamps never exceed `now` in any run).
* Python dicts keyed by strings become association lists; dict key
  presence becomes `Option` fields.
* The external language model is scripted: each `generate` step consumes
  the next `LLMStep` (either a reply carrying the accumulated content and
  the finalized tool calls of `_format_tool_calls`, or an exception from
  the completion call).  Token chunk granularity is abstracted to one
  token event per reply.
* `await`-based exceptions become explicit outcome values
  (`Except String _`, or a `Bool` flag for the durable-write calls of
  asyncpg, whose transactions are all-or-nothing).
-/

/-- A finalized tool call as produced by `_format_tool_calls`:
`name`, structured `args` (kept abstract as its serialized text) and a
non-null `id` (missing ids are synthesized as `call_<i>`). -/
structure ToolCall where
  id : String
  name : String
  args : String
deriving DecidableEq, Repr

/-- LangChain message variants used by the agent and the store:
`SystemMessage`, `HumanMessage`, `AIMessage` (with its `tool_calls`
list, empty by default) and `ToolMessage` (with `name` and
`tool_call_id`). -/
inductive Message where
  | system (content : String)
  | human (content : String)
  | ai (content : String) (tool_calls : List ToolCall)
  | tool (content : String) (name : String) (tool_call_id : String)
deriving DecidableEq, Repr

/-- Model of `getattr(message, "content", None)`: every variant carries content. -/
def Message.contentOf : Message → String
  | .system c => c
  | .human c => c
  | .ai c _ => c
  | .tool c _ _ => c

/-- Model of `message.tool_calls` when the attribute exists; only `AIMessage`
has it (`hasattr(last_message, 'tool_calls')` is false for the other
variants, which the agent treats as having no tool calls). -/
def Message.toolCallsOf : Message → List ToolCall
  | .ai _ tcs => tcs
  | _ => []

/-- Durable dictionary representation of a message
(`_message_to_dict` output): a `type` tag, `content`, and optional
`tool_calls` / `tool_call_id` / `name` keys. -/
structure MsgDict where
  type : String
  content : String
  tool_calls : Option (List ToolCall)
  tool_call_id : Option String
  name : Option String
deriving DecidableEq, Repr

/-- Embeds `PostgreSQLConversationStorage._message_to_dict`: the `tool_calls`
key is written only when the attribute exists and is truthy (a
non-empty list); `ToolMessage` additionally stores `tool_call_id` and
`name`. -/
def message_to_dict : Message → MsgDict
  | .system c => ⟨"SystemMessage", c, none, none, none⟩
  | .human c => ⟨"HumanMessage", c, none, none, none⟩
  | .ai c tcs => ⟨"AIMessage", c, if tcs.isEmpty then none else some tcs, none, none⟩
  | .tool c n cid => ⟨"ToolMessage", c, none, some cid, some n⟩

/-- Embeds `PostgreSQLConversationStorage._dict_to_message`: dispatch on the
`type` tag; missing `tool_calls` yields the `AIMessage` default (empty
list); missing `tool_call_id`/`name` default to `""`; an unknown tag
degrades to `HumanMessage`. -/
def dict_to_message (d : MsgDict) : Message :=
  if d.type = "AIMessage" then
    Message.ai d.content (d.tool_calls.getD [])
  else if d.type = "HumanMessage" then
    Message.human d.content
  else if d.type = "SystemMessage" then
    Message.system d.content
  else if d.type = "ToolMessage" then
    Message.tool d.content (d.name.getD "") (d.tool_call_id.getD "")
  else
    Message.human d.content

/-- Embeds `CacheEntry` from `postgres_storage.py`: data, creation timestamp
and TTL, all per entry. -/
structure CacheEntry (α : Type) where
  data : α
  timestamp : Nat
  ttl : Nat
deriving DecidableEq, Repr

/-- Embeds `CacheEntry.is_expired`: `time.time() - self.timestamp > self.ttl`,
evaluated lazily at read time. -/
def CacheEntry.is_expired (now : Nat) (e : CacheEntry α) : Bool :=
  now - e.timestamp > e.ttl

/-- Lookup in a string-keyed Python dict modelled as an association
list. -/
def alistGet (k : String) : List (String × α) → Option α
  | [] => none
  | (k', v) :: rest => if k' = k then some v else alistGet k rest

/-- Key deletion (`dict.pop(k, None)`). -/
def alistRemove (k : String) : List (String × α) → List (String × α)
  | [] => []
  | p :: rest => if p.1 = k then alistRemove k rest else p :: alistRemove k rest

/-- Dict assignment `dict[k] = v`: the new binding shadows and replaces any old one. -/
def alistInsert (k : String) (v : α) (l : List (String × α)) : List (String × α) :=
  (k, v) :: alistRemove k l

/-- Chat metadata record (a string-valued dict). -/
abbrev Metadata := List (String × String)

/-- The mutable state of one `PostgreSQLConversationStorage` instance:
its caches, the Pending Save Set, the `conversations` table contents
(`chat_id → messages` JSONB) and the bookkeeping counters.  The image
cache is omitted: no modelled operation touches it. -/
structure StoreState where
  message_cache : List (String × CacheEntry (List Message))
  metadata_cache : List (String × CacheEntry Metadata)
  chat_list_cache : Option (CacheEntry (List String))
  pending_saves : List (String × List Message)
  db : List (String × List MsgDict)
  db_operations : Nat
  cache_hits : Nat
  cache_misses : Nat
  cache_ttl : Nat
deriving DecidableEq, Repr

/-- Python truthiness of the `limit: Optional[int]` argument:
`None` and `0` are falsy. -/
def pyTruthy : Option Int → Bool
  | none => false
  | some v => v ≠ 0

/-- The slice `xs[-l:]` for an arbitrary Python int `l`: a negative
start index counts from the end and is clamped at `0`; a non-negative
start is clamped at `len(xs)`. -/
def pySliceFromNeg (l : Int) (xs : List α) : List α :=
  let n : Int := xs.length
  let start : Int := -l
  let s : Int := if start < 0 then max 0 (n + start) else min start n
  xs.drop s.toNat

/-- The truncation `messages[-limit:] if limit else messages` from `get_messages`. -/
def applyLimit (limit : Option Int) (msgs : List Message) : List Message :=
  if pyTruthy limit then pySliceFromNeg (limit.getD 0) msgs else msgs

/-- Embeds `_get_cached_messages`: a present, unexpired entry is a hit and
returns its data; otherwise a miss returns nothing (the entry itself is
left in place — expiry is lazy). -/
def get_cached_messages (now : Nat) (chat_id : String) (st : StoreState) :
    Option (List Message) × StoreState :=
  match alistGet chat_id st.message_cache with
  | some e =>
    if e.is_expired now then
      (none, { st with cache_misses := st.cache_misses + 1 })
    else
      (some e.data, { st with cache_hits := st.cache_hits + 1 })
  | none => (none, { st with cache_misses := st.cache_misses + 1 })

/-- Embeds `_cache_messages`: store a fresh entry stamped `now` with the
instance TTL. -/
def cache_messages (now : Nat) (chat_id : String) (msgs : List Message)
    (st : StoreState) : StoreState :=
  { st with message_cache :=
      alistInsert chat_id ⟨msgs, now, st.cache_ttl⟩ st.message_cache }

/-- Embeds `get_messages`: on a cache hit return the (optionally truncated)
cached data without touching durable storage; on a miss fetch the row,
deserialize, populate the cache and return — except that a missing row
returns `[]` without populating the cache. -/
def get_messages (now : Nat) (chat_id : String) (limit : Option Int)
    (st : StoreState) : List Message × StoreState :=
  match get_cached_messages now chat_id st with
  | (some cached, st1) => (applyLimit limit cached, st1)
  | (none, st1) =>
    let st2 := { st1 with db_operations := st1.db_operations + 1 }
    match alistGet chat_id st2.db with
    | none => ([], st2)
    | some mds =>
      let messages := mds.map dict_to_message
      (applyLimit limit messages, cache_messages now chat_id messages st2)

/-- Embeds `save_messages` (buffered write path): record the full sequence in
the Pending Save Set (overwriting any prior un-flushed entry for the
id) and refresh the message cache. -/
def save_messages (now : Nat) (chat_id : String) (msgs : List Message)
    (st : StoreState) : StoreState :=
  cache_messages now chat_id msgs
    { st with pending_saves := alistInsert chat_id msgs st.pending_saves }

/-- One durable upsert of the batch flush (`INSERT ... ON CONFLICT DO
UPDATE` on `conversations`). -/
def dbUpsert (chat_id : String) (msgs : List Message)
    (db : List (String × List MsgDict)) : List (String × List MsgDict) :=
  alistInsert chat_id (msgs.map message_to_dict) db

/-- One iteration of `_batch_save_worker`'s loop body after the 1s
sleep: drain the Pending Save Set under the lock, then upsert every
drained entry inside one transaction.  `upsert_fails` models the
durable write raising anywhere inside the `with`-block: the transaction
rolls back (the table is unchanged), the exception is caught and
logged, and the loop continues — the drained entries are NOT restored.
On success the listing cache is cleared and the operation counter
advances. -/
def flush_cycle (upsert_fails : Bool) (st : StoreState) : StoreState :=
  if st.pending_saves.isEmpty then st
  else
    let saves := st.pending_saves
    let st1 := { st with pending_saves := [] }
    if upsert_fails then st1
    else
      { st1 with
        db := saves.foldl (fun db p => dbUpsert p.1 p.2 db) st1.db,
        db_operations := st1.db_operations + saves.length,
        chat_list_cache := none }

/-- Embeds `_invalidate_cache`: drop the message and metadata entries for the
id and clear the conversation-listing cache. -/
def invalidate_cache (chat_id : String) (st : StoreState) : StoreState :=
  { st with
    message_cache := alistRemove chat_id st.message_cache,
    metadata_cache := alistRemove chat_id st.metadata_cache,
    chat_list_cache := none }

/-- Embeds `delete_conversation`: run the durable `DELETE`, count the
operation, then invalidate the caches, returning whether a row was
deleted.  `raises` models the durable call raising: the `except`
handler logs and returns `False`, so neither the counter nor any cache
is touched. -/
def delete_conversation (raises : Bool) (chat_id : String) (st : StoreState) :
    Bool × StoreState :=
  if raises then (false, st)
  else
    let found := (alistGet chat_id st.db).isSome
    (found,
      invalidate_cache chat_id
        { st with
          db := alistRemove chat_id st.db,
          db_operations := st.db_operations + 1 })

/-- The value a tool's `ainvoke` returns on success: either a Python
string, or any other object carrying both its `str(...)` and
`json.dumps(...)` renderings. -/
inductive ToolResult where
  | str (s : String)
  | other (pyStr : String) (jsonStr : String)
deriving DecidableEq, Repr

/-- The argument object handed to `ainvoke`: the call's parsed args
(kept abstract as text) plus the `image` key that `tool_node` injects
for `explain_image` when the turn carries an image. -/
structure ToolArgs where
  args : String
  image : Option String
deriving DecidableEq, Repr

/-- Embeds `tools_by_name`: the Tool Registry, mapping a tool name to its
capability; an invocation either returns a result or raises (the
`Except.error` payload is `str(e)`). -/
abbrev ToolReg := List (String × (ToolArgs → Except String ToolResult))

/-- Python truthiness of an optional string (`None` and `""` falsy),
as used for `state.get("image_data")` and for message content. -/
def pyTruthyStr : Option String → Bool
  | none => false
  | some s => s ≠ ""

/-- Model of `str(e)` for the `KeyError` raised by a failed
`self.tools_by_name[name]` lookup. -/
def pyKeyErrorStr (k : String) : String :=
  "'" ++ k ++ "'"

/-- The try-block of one loop iteration in `tool_node`: inject the
image argument for `explain_image` when an image is present, look the
tool up in the registry (a missing name raises `KeyError`) and invoke
it. -/
def invokeOutcome (tools : ToolReg) (image_data : Option String)
    (tc : ToolCall) : Except String ToolResult :=
  let callArgs : ToolArgs :=
    if tc.name = "explain_image" ∧ pyTruthyStr image_data then
      ⟨tc.args, image_data⟩
    else
      ⟨tc.args, none⟩
  match alistGet tc.name tools with
  | none => .error (pyKeyErrorStr tc.name)
  | some f => f callArgs

/-- Whether the invocation of one tool call (registry lookup included)
raises, i.e. whether the except-branch of `tool_node`'s loop body runs
for it. -/
def invokeRaises (tools : ToolReg) (image_data : Option String)
    (tc : ToolCall) : Bool :=
  match invokeOutcome tools image_data tc with
  | .error _ => true
  | .ok _ => false

/-- Model of `"code" in name`, Python's substring test. -/
def strContainsSubstr (hay pat : String) : Bool :=
  decide (pat.data <:+: hay.data)

/-- Model of `str(x)` of a tool result. -/
def ToolResult.pyStrOf : ToolResult → String
  | .str s => s
  | .other p _ => p

/-- Result stringification in `tool_node`: a tool whose name contains
`"code"` is `str(...)`-ified verbatim; a string result passes through;
anything else is `json.dumps`-ed. -/
def stringifyResult (name : String) (r : ToolResult) : String :=
  if strContainsSubstr name "code" then r.pyStrOf
  else
    match r with
    | .str s => s
    | .other _ j => j

/-- The `ToolMessage` content produced for one tool call: the
stringified result on success, or the error string naming the failing
tool when the invocation (lookup included) raised. -/
def toolContent (tools : ToolReg) (image_data : Option String)
    (tc : ToolCall) : String :=
  match invokeOutcome tools image_data tc with
  | .ok r => stringifyResult tc.name r
  | .error e => "Error executing tool '" ++ tc.name ++ "': " ++ e

/-- The `ToolMessage` appended for one tool call of the last assistant
message (name and `tool_call_id` copied from the call). -/
def execToolCall (tools : ToolReg) (image_data : Option String)
    (tc : ToolCall) : Message :=
  .tool (toolContent tools image_data tc) tc.name tc.id

/-- The orchestrator's graph `State` (`iterations`, `messages`,
`chat_id`, `image_data`); the write-only `process_image_used` flag is
omitted — nothing reads it. -/
structure State where
  iterations : Nat
  messages : List Message
  chat_id : String
  image_data : Option String
deriving DecidableEq, Repr

/-- Events placed on the streaming queue: the `{type, data}` lifecycle
and token events sent through `stream_callback`, the bare final-content
string `_run_graph` re-emits, and the terminal error event `query`
yields.  The `SENTINEL` is not an event: it ends the consumer's
iteration without being delivered. -/
inductive Event where
  | node_start (data : String)
  | node_end (data : String)
  | token (data : String)
  | tool_start (data : String)
  | tool_end (data : String)
  | content (data : String)
  | error (data : String)
deriving DecidableEq, Repr

/-- Embeds `ChatAgent.should_continue`: `"end"` on an empty history, when the
iteration counter has reached the maximum, or when the last message
carries no (truthy) `tool_calls`; `"continue"` otherwise. -/
def should_continue (max_iterations : Nat) (st : State) : String :=
  match st.messages.getLast? with
  | none => "end"
  | some last =>
    if st.iterations ≥ max_iterations then "end"
    else if last.toolCallsOf.isEmpty then "end"
    else "continue"

/-- Embeds `ChatAgent.tool_node`: for every tool call of the last message, in
order, emit `tool_start`, run the call (isolating failures as error
text), emit `tool_end`, and collect one `ToolMessage`; then bump the
iteration counter in place (`state["iterations"] = ... + 1`) and bump
it once more in the returned dict (`"iterations": state.get(...) + 1`).
An ACT step only ever runs on a state whose last message is an
assistant message with tool calls (`should_continue` guards the edge);
on other states the Python would raise, and the model totalizes with an
empty call list. -/
def tool_node (tools : ToolReg) (st : State) : State × List Event :=
  let messages := st.messages
  let tcs := (messages.getLast?.getD (.ai "" [])).toolCallsOf
  let outputs := tcs.map (execToolCall tools st.image_data)
  let events :=
    [Event.node_start "tool_node"]
      ++ tcs.flatMap (fun tc => [Event.tool_start tc.name, Event.tool_end tc.name])
      ++ [Event.node_end "tool_node"]
  let st1 := { st with iterations := st.iterations + 1 }
  ({ st1 with messages := messages ++ outputs, iterations := st1.iterations + 1 },
   events)

/-- One scripted step of the external model-completion interface: the
assistant reply a `generate` node finalizes (accumulated content plus
the tool calls of `_format_tool_calls`), or the completion call
raising. -/
inductive LLMStep where
  | reply (content : String) (tool_calls : List ToolCall)
  | raise (msg : String)
deriving DecidableEq, Repr

/-- The outcome of driving the compiled graph: the states emitted in
`values` stream mode, the events sent through `stream_callback`, and
the error (if any) that escaped the stream. -/
structure GraphOutcome where
  states : List State
  events : List Event
  error : Option String
deriving DecidableEq, Repr

/-- The generate/act loop after the initial `START → generate` edge:
each `generate` consumes the next scripted step (emitting `node_start`,
the content token, `node_end`, and appending one assistant message),
`should_continue` picks the edge, and `action` runs `tool_node` before
looping back to `generate`.  In `values` mode the state after each
completed node is emitted; a raising completion call emits only
`node_start` and ends the stream with the error (an exhausted script is
a completion call that produces nothing, likewise an error). -/
def graphSteps (max_iterations : Nat) (tools : ToolReg) :
    List LLMStep → State → GraphOutcome
  | [], _ => ⟨[], [Event.node_start "generate"], some "model stream unavailable"⟩
  | .raise e :: _, _ => ⟨[], [Event.node_start "generate"], some e⟩
  | .reply c tcs :: rest, st =>
    let st1 := { st with messages := st.messages ++ [Message.ai c tcs] }
    let genEvents :=
      [Event.node_start "generate"]
        ++ (if c = "" then [] else [Event.token c])
        ++ [Event.node_end "generate"]
    if should_continue max_iterations st1 = "continue" then
      let acted := tool_node tools st1
      let r := graphSteps max_iterations tools rest acted.1
      ⟨st1 :: acted.1 :: r.states,
       genEvents ++ acted.2 ++ r.events,
       r.error⟩
    else
      ⟨[st1], genEvents, none⟩

/-- Embeds `self.graph.astream(initial_state, ..., stream_mode="values")`:
values mode emits the input state first, then the state after each
node. -/
def graphStream (max_iterations : Nat) (tools : ToolReg)
    (script : List LLMStep) (st0 : State) : GraphOutcome :=
  let g := graphSteps max_iterations tools script st0
  ⟨st0 :: g.states, g.events, g.error⟩

/-- What `_run_graph` leaves behind: the argument of the
`save_messages` call its `finally` block makes (`none` when it makes
none), every queue item placed before the `SENTINEL`, and the exception
(if any) that propagates out of the task. -/
structure RunGraphOut where
  persisted : Option (List Message)
  queued : List Event
  error : Option String
deriving DecidableEq, Repr

/-- Embeds `ChatAgent._run_graph`: drive the stream recording `last_state`;
in the `finally` block, if the last state exists and has messages,
persist them (a failing save is caught and logged — the durable store
is modelled as accepting the write) and re-emit the final message's
content as a bare queue item when truthy; always push the sentinel.
The streamed exception still propagates to whoever awaits the task. -/
def run_graph (max_iterations : Nat) (tools : ToolReg)
    (script : List LLMStep) (st0 : State) : RunGraphOut :=
  let g := graphStream max_iterations tools script st0
  match g.states.getLast? with
  | none => ⟨none, g.events, g.error⟩
  | some ls =>
    if ls.messages.isEmpty then ⟨none, g.events, g.error⟩
    else
      let finalMsg := ls.messages.getLast?.getD (.human "")
      let tail :=
        if finalMsg.contentOf = "" then [] else [Event.content finalMsg.contentOf]
      ⟨some ls.messages, g.events ++ tail, g.error⟩

/-- What a full `query` call delivers: the events yielded to the
caller, in order, and the message list handed to the Conversation
Store (if any). -/
structure QueryOut where
  yielded : List Event
  persisted : Option (List Message)
deriving DecidableEq, Repr

/-- The consumer part of `ChatAgent.query` (lines after the runner task
starts): yield every queue item until the sentinel, then await the
runner inside `finally`; an exception re-raised there is caught by the
outer handler, which yields exactly one terminal error event. -/
def query_run (max_iterations : Nat) (tools : ToolReg)
    (script : List LLMStep) (st0 : State) : QueryOut :=
  let rg := run_graph max_iterations tools script st0
  match rg.error with
  | some e =>
    ⟨rg.queued ++ [Event.error ("Error performing query: " ++ e)], rg.persisted⟩
  | none => ⟨rg.queued, rg.persisted⟩

/-- Is an event the terminal error event? -/
def Event.isError : Event → Bool
  | .error _ => true
  | _ => false

/-- Number of error events in a yielded stream. -/
def countErrors (l : List Event) : Nat :=
  l.countP (fun ev => ev.isError)

/-! Helper lemmas about the association-list dictionary operations and
cache expiry, shared by the claims below. -/

theorem alistGet_alistRemove (k : String) (l : List (String × α)) :
    alistGet k (alistRemove k l) = none := by
  induction l with
  | nil => rfl
  | cons p rest ih =>
    by_cases h : p.1 = k
    · simp [alistRemove, h, ih]
    · simp [alistRemove, alistGet, h, ih]

theorem alistGet_alistInsert (k : String) (v : α) (l : List (String × α)) :
    alistGet k (alistInsert k v l) = some v := by
  simp [alistInsert, alistGet]

theorem is_expired_mono (e : CacheEntry α) {t1 t2 : Nat}
    (h : e.is_expired t1 = true) (hle : t1 ≤ t2) : e.is_expired t2 = true := by
  unfold CacheEntry.is_expired at *
  simp only [decide_eq_true_eq] at *
  omega

/-- C1: the claim says the iteration counter returned by `tool_node`
is the received counter plus exactly one.  The code increments twice —
once by mutating the state dict in place (`state["iterations"] =
state.get("iterations", 0) + 1`) and once more while building the
returned dict (`"iterations": state.get("iterations", 0) + 1`, which
reads the already-bumped value) — so every ACT pass adds exactly two.
The exit debug log, which reads `state.get("iterations")` between the
two increments, reports the once-bumped value the claim (and the spec)
expects. -/
theorem tool_node_double_increment (tools : ToolReg) (st : State) :
    (tool_node tools st).1.iterations = st.iterations + 2 := rfl

/-- C6: serializing any message to its durable dictionary
representation and deserializing it back is the identity — role,
content, the tool-call list of an assistant message, and the
tool-call id and name of a tool message all survive the round trip. -/
theorem message_dict_round_trip (m : Message) :
    dict_to_message (message_to_dict m) = m := by
  cases m with
  | system c => simp [message_to_dict, dict_to_message]
  | human c => simp [message_to_dict, dict_to_message]
  | ai c tcs =>
    by_cases h : tcs.isEmpty
    · simp [message_to_dict, dict_to_message, h, List.isEmpty_iff.mp h]
    · simp [message_to_dict, dict_to_message, h]
  | tool c n cid => simp [message_to_dict, dict_to_message]

/-- C10: a `limit` of `0` is falsy, so `get_messages` skips the
most-recent-entries truncation entirely and behaves exactly like a
call with no limit — on every store state, both the returned message
list and the resulting store state coincide. -/
theorem get_messages_limit_zero (now : Nat) (chat_id : String) (st : StoreState) :
    get_messages now chat_id (some 0) st = get_messages now chat_id none st := by
  have h : applyLimit (some 0) = applyLimit none := by
    funext msgs
    simp [applyLimit, pyTruthy]
  unfold get_messages
  simp only [h]

/-- C2: counterexample to the claim that a failed flush does not lose
buffered saves.  Start from a store whose Pending Save Set holds one
buffered save for `c1` and whose table is empty.  A flush cycle whose
durable upsert fails drains the set but the caught exception merely
logs: the drained entry is gone, so the following (successful) flush
cycle finds nothing to write and the save never reaches the table. -/
theorem flush_failure_discards_pending :
    flush_cycle false
        (flush_cycle true
          ⟨[], [], none, [("c1", [Message.human "hi"])], [], 0, 0, 0, 300⟩)
      = ⟨[], [], none, [], [], 0, 0, 0, 300⟩ := by decide

/-- C2 (amended): a flush cycle always leaves the Pending Save Set
empty.  When the durable upsert fails, the table is unchanged (the
transaction is all-or-nothing) and the drained entries are discarded,
not re-queued; when it succeeds, every drained entry is upserted. -/
theorem flush_cycle_drain_behavior (st : StoreState) :
    (flush_cycle true st).pending_saves = []
    ∧ (flush_cycle true st).db = st.db
    ∧ (flush_cycle false st).pending_saves = []
    ∧ (flush_cycle false st).db
        = st.pending_saves.foldl (fun db p => dbUpsert p.1 p.2 db) st.db := by
  unfold flush_cycle
  by_cases h : st.pending_saves.isEmpty
  · simp [h, List.isEmpty_iff.mp h]
  · simp [h]

/-- C7: counterexample to the claim that deletion invalidates the
caches regardless of whether the durable delete raises.  On a store
whose caches hold entries for `c1`, a raising durable delete returns
`False` and leaves the entire store — message cache, metadata cache
and listing cache included — untouched. -/
theorem delete_raise_keeps_caches :
    delete_conversation true "c1"
        ⟨[("c1", ⟨[Message.human "hi"], 0, 300⟩)],
         [("c1", ⟨[("name", "My chat")], 0, 300⟩)],
         some ⟨["c1"], 0, 60⟩,
         [], [("c1", [⟨"HumanMessage", "hi", none, none, none⟩])], 0, 0, 0, 300⟩
      = (false,
         ⟨[("c1", ⟨[Message.human "hi"], 0, 300⟩)],
          [("c1", ⟨[("name", "My chat")], 0, 300⟩)],
          some ⟨["c1"], 0, 60⟩,
          [], [("c1", [⟨"HumanMessage", "hi", none, none, none⟩])], 0, 0, 0, 300⟩) := by
  decide

/-- C7 (amended): `delete_conversation` invalidates the message cache
entry, the metadata cache entry and the conversation-listing cache
only when the durable delete does not raise; when it raises, it
returns `False` and leaves the store state — caches included —
exactly as it was. -/
theorem delete_conversation_invalidation (chat_id : String) (st : StoreState) :
    (alistGet chat_id (delete_conversation false chat_id st).2.message_cache = none
      ∧ alistGet chat_id (delete_conversation false chat_id st).2.metadata_cache = none
      ∧ (delete_conversation false chat_id st).2.chat_list_cache = none)
    ∧ delete_conversation true chat_id st = (false, st) := by
  refine ⟨⟨?_, ?_, ?_⟩, rfl⟩
  · simp [delete_conversation, invalidate_cache, alistGet_alistRemove]
  · simp [delete_conversation, invalidate_cache, alistGet_alistRemove]
  · rfl

/-- C4: the loop continues (GENERATE → ACT) exactly when the last
message of the state carries at least one tool call and the iteration
counter is strictly below the configured maximum; consequently a
maximum of `0` ends the loop at the very first assistant message, and
a last message without tool calls ends the loop regardless of the
counter. -/
theorem should_continue_iff (max_iterations : Nat) (st : State) :
    (should_continue max_iterations st = "continue"
      ↔ ∃ last, st.messages.getLast? = some last
          ∧ last.toolCallsOf ≠ [] ∧ st.iterations < max_iterations)
    ∧ should_continue 0 st = "end"
    ∧ ∀ last, st.messages.getLast? = some last → last.toolCallsOf = [] →
        should_continue max_iterations st = "end" := by
  unfold should_continue
  cases h : st.messages.getLast? with
  | none =>
    refine ⟨?_, rfl, ?_⟩
    · simp
    · intro last hl
      exact absurd hl (by simp)
  | some last =>
    dsimp only
    refine ⟨?_, ?_, ?_⟩
    · constructor
      · intro hc
        by_cases h1 : st.iterations ≥ max_iterations
        · rw [if_pos h1] at hc
          exact absurd hc (by decide)
        · rw [if_neg h1] at hc
          by_cases h2 : last.toolCallsOf.isEmpty
          · rw [if_pos h2] at hc
            exact absurd hc (by decide)
          · refine ⟨last, rfl, ?_, by omega⟩
            simpa [List.isEmpty_iff] using h2
      · rintro ⟨l, hl, hne, hlt⟩
        injection hl with hl
        subst hl
        rw [if_neg (by omega), if_neg (by simpa [List.isEmpty_iff] using hne)]
    · rw [if_pos (Nat.zero_le _)]
    · intro l hl hempty
      injection hl with hl
      subst hl
      by_cases h1 : st.iterations ≥ max_iterations
      · rw [if_pos h1]
      · rw [if_neg h1, if_pos (by simpa [List.isEmpty_iff] using hempty)]

/-- C5: an ACT step appends exactly one `ToolMessage` per tool call of
the preceding assistant message, in the same order (the new message
list is the old one followed by the pointwise image of the call list);
each appended message carries the call's name and id; and a raising
invocation yields an error content that contains the failing tool's
name, while every sibling call still produces its own message. -/
theorem tool_node_one_message_per_call (tools : ToolReg) (st : State)
    (c : String) (tcs : List ToolCall)
    (h : st.messages.getLast? = some (Message.ai c tcs)) :
    (tool_node tools st).1.messages
        = st.messages ++ tcs.map (execToolCall tools st.image_data)
    ∧ (∀ tc ∈ tcs,
        execToolCall tools st.image_data tc
          = Message.tool (toolContent tools st.image_data tc) tc.name tc.id)
    ∧ ∀ tc ∈ tcs, invokeRaises tools st.image_data tc = true →
        tc.name.data <:+: (toolContent tools st.image_data tc).data := by
  refine ⟨?_, fun tc _ => rfl, ?_⟩
  · unfold tool_node
    simp [h, Message.toolCallsOf]
  · intro tc _ hraise
    unfold invokeRaises at hraise
    unfold toolContent
    cases heq : invokeOutcome tools st.image_data tc with
    | ok r => rw [heq] at hraise; simp at hraise
    | error e =>
      refine ⟨"Error executing tool '".data, ("': " ++ e).data, ?_⟩
      simp [String.data_append]

/-- C5 witness: a two-call ACT step over a registry in which the first
tool succeeds and the second raises. -/
theorem tool_node_one_message_per_call_witness :
    (tool_node
        [("get_weather", fun _ => Except.ok (ToolResult.str "sunny")),
         ("boom_tool", fun _ => Except.error "kaput")]
        ⟨0, [Message.ai ""
              [⟨"id1", "get_weather", "a"⟩, ⟨"id2", "boom_tool", "b"⟩]],
         "c5", none⟩).1.messages
      = [Message.ai "" [⟨"id1", "get_weather", "a"⟩, ⟨"id2", "boom_tool", "b"⟩]]
        ++ [⟨"id1", "get_weather", "a"⟩, ⟨"id2", "boom_tool", "b"⟩].map
            (execToolCall
              [("get_weather", fun _ => Except.ok (ToolResult.str "sunny")),
               ("boom_tool", fun _ => Except.error "kaput")] none) :=
  (tool_node_one_message_per_call
    [("get_weather", fun _ => Except.ok (ToolResult.str "sunny")),
     ("boom_tool", fun _ => Except.error "kaput")]
    ⟨0, [Message.ai ""
          [⟨"id1", "get_weather", "a"⟩, ⟨"id2", "boom_tool", "b"⟩]],
     "c5", none⟩
    "" [⟨"id1", "get_weather", "a"⟩, ⟨"id2", "boom_tool", "b"⟩] rfl).1

/-- C9: a tool call whose name is absent from the registry does not
abort the ACT step: the failed lookup raises a `KeyError` that the
per-call handler converts into a `ToolMessage` whose content names the
missing tool, and every call of the step — the missing one included —
still contributes exactly its own message to the appended list. -/
theorem missing_tool_is_isolated (tools : ToolReg) (st : State)
    (c : String) (tcs : List ToolCall) (tc : ToolCall)
    (h : st.messages.getLast? = some (Message.ai c tcs))
    (hmem : tc ∈ tcs)
    (habs : alistGet tc.name tools = none) :
    (tool_node tools st).1.messages
        = st.messages ++ tcs.map (execToolCall tools st.image_data)
    ∧ execToolCall tools st.image_data tc
        = Message.tool
            ("Error executing tool '" ++ tc.name ++ "': " ++ pyKeyErrorStr tc.name)
            tc.name tc.id
    ∧ tc.name.data <:+: (toolContent tools st.image_data tc).data := by
  have houtcome : invokeOutcome tools st.image_data tc
      = Except.error (pyKeyErrorStr tc.name) := by
    unfold invokeOutcome
    rw [habs]
  refine ⟨?_, ?_, ?_⟩
  · unfold tool_node
    simp [h, Message.toolCallsOf]
  · unfold execToolCall toolContent
    rw [houtcome]
  · unfold toolContent
    rw [houtcome]
    exact ⟨"Error executing tool '".data, ("': " ++ pyKeyErrorStr tc.name).data,
      by simp [String.data_append]⟩

/-- C9 witness: one present tool and one missing tool in the same ACT
step. -/
theorem missing_tool_is_isolated_witness :
    execToolCall [("get_weather", fun _ => Except.ok (ToolResult.str "sunny"))]
        none ⟨"id2", "ghost_tool", "b"⟩
      = Message.tool
          ("Error executing tool '" ++ "ghost_tool" ++ "': "
            ++ pyKeyErrorStr "ghost_tool")
          "ghost_tool" "id2" :=
  (missing_tool_is_isolated
    [("get_weather", fun _ => Except.ok (ToolResult.str "sunny"))]
    ⟨0, [Message.ai ""
          [⟨"id1", "get_weather", "a"⟩, ⟨"id2", "ghost_tool", "b"⟩]],
     "c9", none⟩
    "" [⟨"id1", "get_weather", "a"⟩, ⟨"id2", "ghost_tool", "b"⟩]
    ⟨"id2", "ghost_tool", "b"⟩ rfl (by decide) rfl).2.1

/-- Reading through a cache that holds a fresh entry is a pure cache
hit: it returns the (truncated) cached data and only bumps the hit
counter. -/
theorem get_messages_hit (now : Nat) (chat_id : String) (limit : Option Int)
    (st : StoreState) (e : CacheEntry (List Message))
    (he : alistGet chat_id st.message_cache = some e)
    (hf : e.is_expired now = false) :
    get_messages now chat_id limit st
      = (applyLimit limit e.data, { st with cache_hits := st.cache_hits + 1 }) := by
  unfold get_messages get_cached_messages
  rw [he]
  simp [hf]

/-- C8: counterexample to the claim that the second of two consecutive
reads within the TTL window performs zero durable-storage operations.
For a conversation id absent from durable storage, the first read
returns `[]` without populating the cache, so the second read misses
again and performs another durable fetch: the operation counter goes
from 1 to 2. -/
theorem second_read_touches_db_when_absent :
    (get_messages 0 "c1" none ⟨[], [], none, [], [], 0, 0, 0, 300⟩).1 = []
    ∧ (get_messages 1 "c1" none
        (get_messages 0 "c1" none ⟨[], [], none, [], [], 0, 0, 0, 300⟩).2).1 = []
    ∧ (get_messages 0 "c1" none
        ⟨[], [], none, [], [], 0, 0, 0, 300⟩).2.db_operations = 1
    ∧ (get_messages 1 "c1" none
        (get_messages 0 "c1" none
          ⟨[], [], none, [], [], 0, 0, 0, 300⟩).2).2.db_operations = 2 := by
  decide

/-- C8 (amended): when the first read leaves a message-cache entry for
the id (a cache hit, or a miss that found the conversation in durable
storage) and that entry is still unexpired at the time of the second
read, the second read returns exactly the first read's data and
performs zero durable-storage operations; with the timestamps in
order, this covers every case except an id absent from durable
storage, whose empty result is never cached. -/
theorem cached_second_read (st : StoreState) (chat_id : String) (limit : Option Int)
    (t1 t2 : Nat) (hle : t1 ≤ t2) (e : CacheEntry (List Message))
    (hentry : alistGet chat_id
        (get_messages t1 chat_id limit st).2.message_cache = some e)
    (hfresh : e.is_expired t2 = false) :
    (get_messages t2 chat_id limit (get_messages t1 chat_id limit st).2).1
        = (get_messages t1 chat_id limit st).1
    ∧ (get_messages t2 chat_id limit
          (get_messages t1 chat_id limit st).2).2.db_operations
        = (get_messages t1 chat_id limit st).2.db_operations := by
  have hsecond :=
    get_messages_hit t2 chat_id limit (get_messages t1 chat_id limit st).2 e
      hentry hfresh
  rw [hsecond]
  refine ⟨?_, rfl⟩
  have hf1 : e.is_expired t1 = false := by
    cases hx : e.is_expired t1 with
    | false => rfl
    | true =>
      rw [is_expired_mono e hx hle] at hfresh
      exact absurd hfresh (by decide)
  revert hentry
  unfold get_messages get_cached_messages
  cases h0 : alistGet chat_id st.message_cache with
  | some e0 =>
    cases hx : e0.is_expired t1 with
    | false =>
      intro hentry
      simp only [h0, hx, Bool.false_eq_true, ite_false, ite_true] at hentry ⊢
      injection hentry with hentry
      rw [hentry]
    | true =>
      intro hentry
      simp only [h0, hx, Bool.false_eq_true, ite_false, ite_true] at hentry ⊢
      cases hdb : alistGet chat_id st.db with
      | none =>
        rw [hdb] at hentry
        simp only at hentry
        rw [h0] at hentry
        injection hentry with hentry
        rw [hentry] at hx
        rw [hx] at hf1
        exact absurd hf1 (by decide)
      | some mds =>
        rw [hdb] at hentry
        simp only [cache_messages] at hentry ⊢
        rw [alistGet_alistInsert] at hentry
        injection hentry with hentry
        rw [← hentry]
  | none =>
    intro hentry
    simp only [h0] at hentry ⊢
    cases hdb : alistGet chat_id st.db with
    | none =>
      rw [hdb] at hentry
      simp only at hentry
      rw [h0] at hentry
      exact absurd hentry (by simp)
    | some mds =>
      rw [hdb] at hentry
      simp only [cache_messages] at hentry ⊢
      rw [alistGet_alistInsert] at hentry
      injection hentry with hentry
      rw [← hentry]

/-- C8 witness: a conversation present in durable storage, read twice
(at times 0 and 1, TTL 300). -/
theorem cached_second_read_witness :
    (get_messages 1 "c1" none
        (get_messages 0 "c1" none
          ⟨[], [], none, [],
           [("c1", [⟨"HumanMessage", "hi", none, none, none⟩])],
           0, 0, 0, 300⟩).2).1
      = (get_messages 0 "c1" none
          ⟨[], [], none, [],
           [("c1", [⟨"HumanMessage", "hi", none, none, none⟩])],
           0, 0, 0, 300⟩).1 :=
  (cached_second_read
    ⟨[], [], none, [],
     [("c1", [⟨"HumanMessage", "hi", none, none, none⟩])],
     0, 0, 0, 300⟩
    "c1" none 0 1 (by decide) ⟨[Message.human "hi"], 0, 300⟩
    (by decide) (by decide)).1

/-- The message list an ACT step returns is the received list followed
by the per-call tool messages. -/
theorem tool_node_messages (tools : ToolReg) (st : State) :
    (tool_node tools st).1.messages
      = st.messages
        ++ ((st.messages.getLast?.getD (Message.ai "" [])).toolCallsOf).map
            (execToolCall tools st.image_data) := rfl

/-- The events an ACT step emits, explicitly. -/
theorem tool_node_events (tools : ToolReg) (st : State) :
    (tool_node tools st).2
      = [Event.node_start "tool_node"]
        ++ ((st.messages.getLast?.getD (Message.ai "" [])).toolCallsOf).flatMap
            (fun tc => [Event.tool_start tc.name, Event.tool_end tc.name])
        ++ [Event.node_end "tool_node"] := rfl

/-- No event emitted by an ACT step is an error event. -/
theorem tool_node_no_error_events (tools : ToolReg) (st : State) :
    ∀ ev ∈ (tool_node tools st).2, ev.isError = false := by
  intro ev hev
  rw [tool_node_events] at hev
  rcases List.mem_append.mp hev with h1 | h1
  · rcases List.mem_append.mp h1 with h2 | h2
    · rcases List.mem_cons.mp h2 with rfl | h3
      · rfl
      · exact absurd h3 (List.not_mem_nil ev)
    · rcases List.mem_flatMap.mp h2 with ⟨tc, _, h3⟩
      rcases List.mem_cons.mp h3 with rfl | h4
      · rfl
      · rcases List.mem_cons.mp h4 with rfl | h5
        · rfl
        · exact absurd h5 (List.not_mem_nil ev)
  · rcases List.mem_cons.mp h1 with rfl | h3
    · rfl
    · exact absurd h3 (List.not_mem_nil ev)

/-- No event in the generate-node event block is an error event. -/
theorem gen_events_no_error (c : String) (ev : Event)
    (hev : ev ∈ [Event.node_start "generate"]
        ++ (if c = "" then [] else [Event.token c])
        ++ [Event.node_end "generate"]) :
    ev.isError = false := by
  rcases List.mem_append.mp hev with h1 | h1
  · rcases List.mem_append.mp h1 with h2 | h2
    · rcases List.mem_cons.mp h2 with rfl | h3
      · rfl
      · exact absurd h3 (List.not_mem_nil ev)
    · by_cases hcc : c = ""
      · rw [if_pos hcc] at h2
        exact absurd h2 (List.not_mem_nil ev)
      · rw [if_neg hcc] at h2
        rcases List.mem_cons.mp h2 with rfl | h3
        · rfl
        · exact absurd h3 (List.not_mem_nil ev)
  · rcases List.mem_cons.mp h1 with rfl | h3
    · rfl
    · exact absurd h3 (List.not_mem_nil ev)

/-- No event the graph loop sends through the stream callback is an
error event: errors leave the loop as exceptions, not as events. -/
theorem graphSteps_no_error_events (m : Nat) (tools : ToolReg)
    (script : List LLMStep) :
    ∀ st ev, ev ∈ (graphSteps m tools script st).events → ev.isError = false := by
  induction script with
  | nil =>
    intro st ev hev
    simp [graphSteps] at hev
    subst hev
    rfl
  | cons step rest ih =>
    intro st ev hev
    cases step with
    | raise e =>
      simp [graphSteps] at hev
      subst hev
      rfl
    | reply c tcs =>
      simp only [graphSteps] at hev
      split at hev
      · rcases List.mem_append.mp hev with h1 | h1
        · rcases List.mem_append.mp h1 with h2 | h2
          · exact gen_events_no_error c ev h2
          · exact tool_node_no_error_events tools _ ev h2
        · exact ih _ ev h1
      · exact gen_events_no_error c ev hev

/-- Transitivity of the list-extension relation, spelled with explicit
witnesses. -/
theorem extendTrans {a b c : List α} (h1 : a <+: b) (h2 : b <+: c) :
    a <+: c := by
  rcases h1 with ⟨t1, rfl⟩
  rcases h2 with ⟨t2, rfl⟩
  exact ⟨t1 ++ t2, (List.append_assoc _ _ _).symm⟩

/-- Every state the loop emits extends the messages of the state it
started from (nodes only ever append messages). -/
theorem graphSteps_states_extend (m : Nat) (tools : ToolReg)
    (script : List LLMStep) :
    ∀ st s, s ∈ (graphSteps m tools script st).states →
      st.messages <+: s.messages := by
  induction script with
  | nil =>
    intro st s hs
    simp [graphSteps] at hs
  | cons step rest ih =>
    intro st s hs
    cases step with
    | raise e => simp [graphSteps] at hs
    | reply c tcs =>
      simp only [graphSteps] at hs
      split at hs
      · rcases List.mem_cons.mp hs with rfl | hs1
        · exact ⟨_, rfl⟩
        · rcases List.mem_cons.mp hs1 with rfl | hs2
          · rw [tool_node_messages]
            exact extendTrans ⟨_, rfl⟩ ⟨_, rfl⟩
          · refine extendTrans ?_ (ih _ s hs2)
            rw [tool_node_messages]
            exact extendTrans ⟨_, rfl⟩ ⟨_, rfl⟩
      · rcases List.mem_cons.mp hs with rfl | hs1
        · exact ⟨_, rfl⟩
        · exact absurd hs1 (List.not_mem_nil s)

/-- The exception escaping `_run_graph` is exactly the one the stream
raised; the finally-block does not swallow or replace it. -/
theorem run_graph_error_eq (m : Nat) (tools : ToolReg) (script : List LLMStep)
    (st0 : State) :
    (run_graph m tools script st0).error
      = (graphStream m tools script st0).error := by
  unfold run_graph
  dsimp only
  cases h : (graphStream m tools script st0).states.getLast? with
  | none => rfl
  | some ls =>
    dsimp only
    by_cases hl : ls.messages.isEmpty = true
    · rw [if_pos hl]
    · rw [if_neg hl]

/-- Nothing `_run_graph` places on the queue before the sentinel is an
error event. -/
theorem run_graph_queued_no_error (m : Nat) (tools : ToolReg)
    (script : List LLMStep) (st0 : State) :
    ∀ ev ∈ (run_graph m tools script st0).queued, ev.isError = false := by
  intro ev hev
  have hglobal : ∀ ev ∈ (graphStream m tools script st0).events,
      Event.isError ev = false := by
    intro ev hev
    exact graphSteps_no_error_events m tools script st0 ev
      (by simpa [graphStream] using hev)
  unfold run_graph at hev
  dsimp only at hev
  cases h : (graphStream m tools script st0).states.getLast? with
  | none =>
    rw [h] at hev
    exact hglobal ev hev
  | some ls =>
    rw [h] at hev
    dsimp only at hev
    by_cases hl : ls.messages.isEmpty = true
    · rw [if_pos hl] at hev
      exact hglobal ev hev
    · rw [if_neg hl] at hev
      dsimp only at hev
      rcases List.mem_append.mp hev with h1 | h1
      · exact hglobal ev h1
      · by_cases hc : (ls.messages.getLast?.getD (Message.human "")).contentOf = ""
        · rw [if_pos hc] at h1
          exact absurd h1 (List.not_mem_nil ev)
        · rw [if_neg hc] at h1
          rcases List.mem_cons.mp h1 with rfl | h2
          · rfl
          · exact absurd h2 (List.not_mem_nil ev)

/-- Whenever the initial state already carries messages, `_run_graph`'s
finally-block persists the last streamed state's messages. -/
theorem run_graph_persisted_some (m : Nat) (tools : ToolReg)
    (script : List LLMStep) (st0 : State) (hmsg : st0.messages ≠ []) :
    (run_graph m tools script st0).persisted.isSome = true := by
  unfold run_graph
  dsimp only
  cases hls : (graphStream m tools script st0).states.getLast? with
  | none =>
    rw [List.getLast?_eq_none_iff] at hls
    exact absurd hls (by simp [graphStream])
  | some ls =>
    have hmem := List.mem_of_getLast?_eq_some hls
    have hpre : st0.messages <+: ls.messages := by
      rcases List.mem_cons.mp (by simpa [graphStream] using hmem) with rfl | hmem'
      · exact ⟨[], List.append_nil _⟩
      · exact graphSteps_states_extend m tools script st0 ls hmem'
    have hnem : ¬ ls.messages.isEmpty = true := by
      rw [List.isEmpty_iff]
      intro hnil
      rcases hpre with ⟨t, ht⟩
      rw [hnil] at ht
      rcases List.append_eq_nil.mp ht with ⟨h1, _⟩
      exact hmsg h1
    dsimp only
    rw [if_neg hnem]
    rfl

/-- C3: counterexample to the claim that on a model-stream error the
turn's partial message history is not persisted.  First the model
requests one tool call (which succeeds), then the second completion
call raises `boom`: the finally-block of the background task still
hands the partial history — system, human, assistant-with-tool-call
and tool message — to the Conversation Store. -/
theorem model_error_persists_turn_history :
    (query_run 3
        [("get_weather", fun _ => Except.ok (ToolResult.str "sunny"))]
        [LLMStep.reply "" [⟨"call_0", "get_weather", "loc"⟩], LLMStep.raise "boom"]
        ⟨0, [Message.system "sys", Message.human "hi"], "c1", none⟩).persisted
      = some [Message.system "sys", Message.human "hi",
              Message.ai "" [⟨"call_0", "get_weather", "loc"⟩],
              Message.tool "sunny" "get_weather" "call_0"] := by
  decide

/-- C3 (amended): when the graph stream ends with a model-stream error
and the turn started with a non-empty history, `query` yields exactly
one terminal error event, that event is the last thing yielded — but
the partial history of the last streamed state IS persisted (by the
finally-block of the background task), contrary to the original
claim's second half. -/
theorem model_error_single_error_event_and_persist
    (m : Nat) (tools : ToolReg) (script : List LLMStep) (st0 : State) (e : String)
    (herr : (graphStream m tools script st0).error = some e)
    (hmsg : st0.messages ≠ []) :
    countErrors (query_run m tools script st0).yielded = 1
    ∧ (query_run m tools script st0).yielded.getLast?
        = some (Event.error ("Error performing query: " ++ e))
    ∧ (query_run m tools script st0).persisted.isSome = true := by
  have herr2 : (run_graph m tools script st0).error = some e := by
    rw [run_graph_error_eq]
    exact herr
  have hq : query_run m tools script st0
      = ⟨(run_graph m tools script st0).queued
          ++ [Event.error ("Error performing query: " ++ e)],
         (run_graph m tools script st0).persisted⟩ := by
    unfold query_run
    dsimp only
    rw [herr2]
  rw [hq]
  refine ⟨?_, ?_, ?_⟩
  · unfold countErrors
    rw [List.countP_append]
    have hzero : List.countP (fun ev => ev.isError)
        (run_graph m tools script st0).queued = 0 := by
      rw [List.countP_eq_zero]
      intro ev hev
      rw [run_graph_queued_no_error m tools script st0 ev hev]
      exact Bool.false_ne_true
    rw [hzero]
    rfl
  · exact List.getLast?_concat _
  · exact run_graph_persisted_some m tools script st0 hmsg

/-- C3 witness: a single scripted completion call that raises. -/
theorem model_error_single_error_event_and_persist_witness :
    countErrors (query_run 3 []
        [LLMStep.raise "down"]
        ⟨0, [Message.human "q"], "c9w", none⟩).yielded = 1 :=
  (model_error_single_error_event_and_persist 3 []
    [LLMStep.raise "down"]
    ⟨0, [Message.human "q"], "c9w", none⟩ "down" (by decide) (by decide)).1
